import Mathlib

/-!
Shallow embedding of the NER pipeline in src/ner/main.py
(`perform_ner_analysis`).

The pipeline delegates tokenization, native entity recognition and HTML
rendering to opaque external collaborators (the spaCy model, displacy).
Those are modelled parametrically: an `Nlp` value supplies `annotate`
(the call `nlp(text)` producing a `Doc`), `explain` (the lookup
`spacy.explain`, a partial map from label to definition, returning
`none` when the glossary has no entry, exactly as the Python function
returns `None`), and `render` (`displacy.render`).  `spacy.load` is a
partial map from model name to `Nlp`; `none` models the `OSError` path.

The script's own logic — the native-entity row construction, the custom
`Matcher` pattern table and its matching semantics, the
concat/sort_values merge, and the `value_counts` summary — is embedded
executably below, translated clause by clause from the source.
-/

namespace NER

/-- One spaCy token: its raw text and its character offset `idx` in the
document text. -/
structure Token where
  text : String
  idx : Nat
deriving Repr, DecidableEq, Inhabited

/-- Character offset one past the token, as in spaCy
(`token.idx + len(token.text)`). -/
def Token.end_char (t : Token) : Nat := t.idx + t.text.length

/-- A native entity span attached to the document by the model's own
recognizer (`doc.ents` element): text, char offsets, label. -/
structure SpacyEnt where
  text : String
  start_char : Nat
  end_char : Nat
  label : String
deriving Repr, DecidableEq, Inhabited

/-- The annotated document returned by `nlp(text)`: the original text,
the token sequence, and the native entities. -/
structure Doc where
  text : String
  tokens : List Token
  ents : List SpacyEnt
deriving Repr, DecidableEq, Inhabited

/-- One row of the entity DataFrame, with the columns built at
src/ner/main.py lines 52-60 and 160-168.  `Description` is an `Option`
because the Python code stores the raw result of `spacy.explain`,
which is `None` (not the empty string) when no definition exists. -/
structure Row where
  Text : String
  Start : Nat
  End : Nat
  Type' : String
  Description : Option String
deriving Repr, DecidableEq, Inhabited

/-- Step 3 of the pipeline (lines 50-60): one row per native entity,
with `Description` filled from the label-to-definition lookup. -/
def native_entities_of (explain : String → Option String) (doc : Doc) : List Row :=
  doc.ents.map (fun e =>
    { Text := e.text, Start := e.start_char, End := e.end_char,
      Type' := e.label, Description := explain e.label })

/-- ASCII digit test, embedding the character class of the Python
regexes `\d+\s*µg/m3` and `\d+\s*gigatons` (the claims only exercise
ASCII text, so the ASCII fragment of `\d` suffices). -/
def isAsciiDigit (c : Char) : Bool := decide ('0' ≤ c) && decide (c ≤ '9')

/-- Python `\s` on ASCII: space, tab, newline, carriage return,
vertical tab, form feed. -/
def isPyWhitespace (c : Char) : Bool :=
  c == ' ' || c == '\t' || c == '\n' || c == '\r' || c == '\x0b' || c == '\x0c'

/-- Tests whether the first list is an initial segment of the second. -/
def beginsWith : List Char → List Char → Bool
  | [], _ => true
  | _ :: _, [] => false
  | a :: as, b :: bs => a == b && beginsWith as bs

/-- Tests whether the regex fragment digits-then-optional-spaces-then-
literal matches starting at the head of `cs`. -/
def digitsWsLitAt (lit : List Char) (cs : List Char) : Bool :=
  match cs with
  | [] => false
  | c :: _ =>
    isAsciiDigit c && beginsWith lit ((cs.dropWhile isAsciiDigit).dropWhile isPyWhitespace)

/-- Embeds Python `re.search` of a pattern of the shape
digits-spaces-literal (the only regex shapes in the pattern table,
lines 147-148) against a token's raw text: the pattern may match at any
position of the string. -/
def regexSearchDigitsWsLit (lit : String) (s : String) : Bool :=
  (List.range s.toList.length).any (fun i => digitsWsLitAt lit.toList (s.toList.drop i))

/-- One per-token constraint of a Matcher pattern, as used in the table
at lines 64-151: exact match on the LOWER attribute, set membership on
LOWER, or a REGEX on the raw TEXT attribute. -/
inductive TokenSpec where
  | lowerEq (s : String)
  | lowerIn (ss : List String)
  | textRegexDigitsWsLit (lit : String)
deriving Repr, DecidableEq

/-- The LOWER attribute of a token (`token.lower_`), lowercasing each
character; `Char.toLower` agrees with Python lowercasing on ASCII,
which covers the whole pattern table. -/
def tokenLower (t : Token) : String := ⟨t.text.data.map Char.toLower⟩

/-- Satisfaction of one per-token constraint by one token. -/
def TokenSpec.check : TokenSpec → Token → Bool
  | .lowerEq s, t => tokenLower t == s
  | .lowerIn ss, t => ss.contains (tokenLower t)
  | .textRegexDigitsWsLit lit, t => regexSearchDigitsWsLit lit t.text

/-- The custom pattern table, transcribed verbatim from
src/ner/main.py lines 64-151. -/
def custom_patterns : List (String × List (List TokenSpec)) :=
  [ ("ORG",
      [ [.lowerEq "who"],
        [.lowerEq "world", .lowerEq "health", .lowerEq "organization"],
        [.lowerEq "ihme"],
        [.lowerEq "fao"],
        [.lowerEq "unep"],
        [.lowerEq "iea"],
        [.lowerEq "nasa"],
        [.lowerEq "health", .lowerEq "effects", .lowerEq "institute"] ]),
    ("RESEARCH_CONCEPT",
      [ [.lowerEq "energy", .lowerEq "ladder"],
        [.lowerEq "energy", .lowerEq "poverty"],
        [.lowerEq "indoor", .lowerEq "air", .lowerEq "pollution"],
        [.lowerEq "improved", .lowerEq "cook", .lowerEq "stoves"],
        [.lowerEq "particulate", .lowerEq "matter"],
        [.lowerIn ["pm2.5", "pm10"]] ]),
    ("ENERGY_SOURCE",
      [ [.lowerEq "biomass"],
        [.lowerEq "fuelwood"],
        [.lowerEq "charcoal"],
        [.lowerEq "coal"],
        [.lowerEq "liquefied", .lowerEq "petroleum", .lowerEq "gas"],
        [.lowerEq "crop", .lowerEq "waste"],
        [.lowerEq "dried", .lowerEq "dung"] ]),
    ("HEALTH_CONDITION",
      [ [.lowerEq "pneumonia"],
        [.lowerEq "copd"],
        [.lowerEq "chronic", .lowerEq "obstructive", .lowerEq "pulmonary", .lowerEq "disease"],
        [.lowerEq "lung", .lowerEq "cancer"],
        [.lowerEq "cataracts"],
        [.lowerEq "burns"],
        [.lowerEq "stillbirths"] ]),
    ("GEOG",
      [ [.lowerEq "sub-saharan", .lowerEq "africa"],
        [.lowerEq "africa"],
        [.lowerEq "asia"],
        [.lowerEq "latin", .lowerEq "america"],
        [.lowerEq "kenya"],
        [.lowerEq "china"],
        [.lowerEq "india"],
        [.lowerEq "rome"],
        [.lowerEq "delhi"] ]),
    ("MEASUREMENT",
      [ [.lowerEq "micrograms", .lowerEq "per", .lowerEq "cubic", .lowerEq "metre"],
        [.textRegexDigitsWsLit "µg/m3"],
        [.textRegexDigitsWsLit "gigatons"] ]) ]

/-- A pattern (list of per-token constraints) matches a contiguous run
at the head of the given token list. -/
def specsMatch : List TokenSpec → List Token → Bool
  | [], _ => true
  | _ :: _, [] => false
  | sp :: sps, t :: ts => sp.check t && specsMatch sps ts

/-- All matches `(rule name, start token, end token)` of the pattern
table against the document, every rule and pattern at every start
position, overlapping matches kept (spaCy `Matcher.__call__`; `add`
interns the rule name and `nlp.vocab.strings[match_id]` recovers it, so
the name is carried directly).  Matches are enumerated in start-position
order; every property proved below is invariant under the match-list
order, since the pipeline sorts by start offset before any output. -/
def matcherMatches (doc : Doc) : List (String × Nat × Nat) :=
  (List.range doc.tokens.length).flatMap (fun s =>
    custom_patterns.flatMap (fun rule =>
      (rule.2.filter (fun pat => specsMatch pat (doc.tokens.drop s))).map
        (fun pat => (rule.1, s, s + pat.length))))

/-- Characters `a` (inclusive) to `b` (exclusive) of a string, i.e. the
Python slice `text[a:b]` used by `span.text`. -/
def sliceChars (s : String) (a b : Nat) : String :=
  ((s.toList.drop a).take (b - a)).asString

/-- The row built from one match (lines 158-168): `doc[start:end]` gives
the span, whose char offsets come from its first and last token. -/
def spanRow (doc : Doc) (name : String) (s e : Nat) : Row :=
  { Text := sliceChars doc.text (doc.tokens.getD s default).idx
      ((doc.tokens.getD (e - 1) default).end_char),
    Start := (doc.tokens.getD s default).idx,
    End := (doc.tokens.getD (e - 1) default).end_char,
    Type' := name,
    Description := some "Custom entity" }

/-- Step 4 of the pipeline (lines 62-168): the custom entity rows. -/
def custom_entities_of (doc : Doc) : List Row :=
  (matcherMatches doc).map (fun m => spanRow doc m.1 m.2.1 m.2.2)

/-- Stable insertion of a row into a list already ordered by ascending
`Start`. -/
def insertByStart (r : Row) : List Row → List Row
  | [] => [r]
  | x :: xs => if r.Start ≤ x.Start then r :: x :: xs else x :: insertByStart r xs

/-- The merge sort step `sort_values("Start")` (line 176), embedded as
an insertion sort: it returns a permutation of its input ordered by
ascending `Start`, which is all `sort_values` guarantees (its default
`kind` is quicksort, whose tie order pandas documents as unstable, so
the tie order of this embedding is one admissible behavior, not a
guarantee of the source). -/
def sortByStart : List Row → List Row
  | [] => []
  | r :: rs => insertByStart r (sortByStart rs)

/-- Number of occurrences of a key in a list of labels. -/
def occCount (k : String) : List String → Nat
  | [] => 0
  | x :: xs => (if x = k then 1 else 0) + occCount k xs

/-- Worker for `uniqueKeys`: keys of the list in order of first
occurrence, skipping keys already seen. -/
def uniqueKeysAux (seen : List String) : List String → List String
  | [] => []
  | x :: xs =>
    if x ∈ seen then uniqueKeysAux seen xs
    else x :: uniqueKeysAux (x :: seen) xs

/-- The distinct labels of a list in order of first occurrence, as
produced by the pandas hashtable backing `value_counts`. -/
def uniqueKeys (l : List String) : List String := uniqueKeysAux [] l

/-- Insertion of a `(label, count)` pair into a list ordered by
descending count, earlier pairs kept first on ties. -/
def insertByCountDesc (p : String × Nat) :
    List (String × Nat) → List (String × Nat)
  | [] => [p]
  | x :: xs => if x.2 ≤ p.2 then p :: x :: xs else x :: insertByCountDesc p xs

/-- Sort by descending count (the ordering `value_counts` applies); as
with `sortByStart`, the tie order here is one admissible behavior of
the underlying library sort, not a guarantee of the source. -/
def sortByCountDesc : List (String × Nat) → List (String × Nat)
  | [] => []
  | p :: ps => insertByCountDesc p (sortByCountDesc ps)

/-- Step 6 of the pipeline (line 179): `value_counts` on the Type
column — occurrence counts per distinct label, ordered by descending
count. -/
def value_counts (types : List String) : List (String × Nat) :=
  sortByCountDesc ((uniqueKeys types).map (fun k => (k, occCount k types)))

/-- The two exception kinds the function can raise: the `ImportError`
of lines 41-44 (missing model) and the pandas `KeyError` raised by
`sort_values("Start")` when the concatenated frame has no columns. -/
inductive PyError where
  | modelNotFound (msg : String)
  | keyError (key : String)
deriving Repr, DecidableEq

/-- The opaque annotator obtained from `spacy.load`: `annotate` is the
call `nlp(text)`, `explain` is `spacy.explain`, `render` is
`displacy.render(doc, style="ent", page=True)`. -/
structure Nlp where
  annotate : String → Doc
  explain : String → Option String
  render : Doc → String

/-- The result dictionary of `perform_ner_analysis` (lines 185-190). -/
structure Results where
  doc : Doc
  all_entities : List Row
  type_summary : List (String × Nat)
  visualization_html : String
deriving DecidableEq

/-- Steps 3-6 of the pipeline after the document is built: native rows,
custom rows, concat + `sort_values("Start")`, `value_counts`.  When both
entity lists are empty (e.g. on empty input text), the branch
`[pd.DataFrame(entities)]` of line 171-174 concatenates only an empty
frame with no columns, and `sort_values("Start")` raises
`KeyError: Start` — embedded as the error case here. -/
def analysisCore (explain : String → Option String) (doc : Doc) :
    Except PyError (List Row × List (String × Nat)) :=
  if (native_entities_of explain doc).isEmpty && (custom_entities_of doc).isEmpty then
    Except.error (PyError.keyError "Start")
  else
    Except.ok
      (sortByStart (native_entities_of explain doc ++ custom_entities_of doc),
       value_counts ((sortByStart (native_entities_of explain doc ++ custom_entities_of doc)).map Row.Type'))

/-- The whole of `perform_ner_analysis` (lines 21-190), parametric in
the opaque `spacy.load` capability. -/
def perform_ner_analysis (load : String → Option Nlp) (text : String)
    (model_name : String) : Except PyError Results :=
  match load model_name with
  | none =>
      Except.error (PyError.modelNotFound
        ("Model " ++ model_name ++ " not found. Install it with: python -m spacy download " ++ model_name))
  | some nlp =>
      match analysisCore nlp.explain (nlp.annotate text) with
      | Except.error e => Except.error e
      | Except.ok p =>
          Except.ok
            { doc := nlp.annotate text,
              all_entities := p.1,
              type_summary := p.2,
              visualization_html := nlp.render (nlp.annotate text) }


/-! Concrete fixtures: documents a hypothetical annotator could return,
used to instantiate the theorems below.  Tokenizations follow spaCy's
English tokenizer on the given texts. -/

/-- An annotator that returns an empty document (no tokens, no
entities), as the model does on empty input text. -/
def emptyNlp : Nlp :=
  { annotate := fun t => { text := t, tokens := [], ents := [] },
    explain := fun _ => none,
    render := fun _ => "<html/>" }

/-- Input text of the spec's §8 Kenya example. -/
def c7text : String := "Kenya relies on charcoal and biomass."

/-- The Kenya example document: standard tokenization, and an annotator
run that attached no native entities. -/
def c7doc : Doc :=
  { text := c7text,
    tokens := [⟨"Kenya", 0⟩, ⟨"relies", 6⟩, ⟨"on", 13⟩, ⟨"charcoal", 16⟩,
               ⟨"and", 25⟩, ⟨"biomass", 29⟩, ⟨".", 36⟩],
    ents := [] }

/-- An annotator producing `c7doc` for every input. -/
def c7nlp : Nlp :=
  { annotate := fun _ => c7doc, explain := fun _ => none, render := fun _ => "<html/>" }

/-- A model loader resolving every name to `c7nlp`. -/
def c7load : String → Option Nlp := fun _ => some c7nlp

/-- Expected custom row for "Kenya". -/
def c7kenya : Row := ⟨"Kenya", 0, 5, "GEOG", some "Custom entity"⟩

/-- Expected custom row for "charcoal". -/
def c7charcoal : Row := ⟨"charcoal", 16, 24, "ENERGY_SOURCE", some "Custom entity"⟩

/-- Expected custom row for "biomass". -/
def c7biomass : Row := ⟨"biomass", 29, 36, "ENERGY_SOURCE", some "Custom entity"⟩

/-- The full result of the pipeline on the Kenya example under `c7load`. -/
def c7results : Results :=
  { doc := c7doc,
    all_entities := [c7kenya, c7charcoal, c7biomass],
    type_summary := [("ENERGY_SOURCE", 2), ("GEOG", 1)],
    visualization_html := "<html/>" }

/-- Input text containing the three literal substrings of the spec's §8
WHO / energy ladder / PM2.5 example. -/
def c6text : String := "WHO tracks the energy ladder and PM2.5 levels."

/-- The WHO example document: standard tokenization, no native
entities attached. -/
def c6doc : Doc :=
  { text := c6text,
    tokens := [⟨"WHO", 0⟩, ⟨"tracks", 4⟩, ⟨"the", 11⟩, ⟨"energy", 15⟩,
               ⟨"ladder", 22⟩, ⟨"and", 29⟩, ⟨"PM2.5", 33⟩, ⟨"levels", 39⟩, ⟨".", 45⟩],
    ents := [] }

/-- An annotator producing `c6doc` for every input. -/
def c6nlp : Nlp :=
  { annotate := fun _ => c6doc, explain := fun _ => none, render := fun _ => "<html/>" }

/-- A label-to-definition lookup with a single entry, standing for the
spaCy glossary restricted to the labels a hypothetical model emits;
"CUSTOM_LBL" has no definition in it. -/
def c8explain : String → Option String :=
  fun l => if l = "GPE" then some "Countries, cities, states" else none

/-- A document whose single native entity carries a label that has no
definition in the lookup. -/
def c8doc : Doc :=
  { text := "Acme meeting",
    tokens := [⟨"Acme", 0⟩, ⟨"meeting", 5⟩],
    ents := [⟨"Acme", 0, 4, "CUSTOM_LBL"⟩] }


/-! Helper lemmas about the embedded sorting and counting functions. -/

/-- Inserting into a list is a permutation of consing. -/
theorem insertByStart_perm (r : Row) (l : List Row) :
    List.Perm (insertByStart r l) (r :: l) := by
  induction l with
  | nil => exact List.Perm.refl _
  | cons x xs ih =>
    by_cases h : r.Start ≤ x.Start
    · simp [insertByStart, h]
    · simp only [insertByStart, if_neg h]
      exact (ih.cons x).trans (List.Perm.swap r x xs)

/-- Membership in an insertion. -/
theorem mem_insertByStart {a r : Row} {l : List Row} :
    a ∈ insertByStart r l ↔ a = r ∨ a ∈ l := by
  rw [(insertByStart_perm r l).mem_iff, List.mem_cons]

/-- Insertion preserves the ascending-by-Start pairwise ordering. -/
theorem pairwise_insertByStart {r : Row} {l : List Row}
    (h : l.Pairwise (fun a b => a.Start ≤ b.Start)) :
    (insertByStart r l).Pairwise (fun a b => a.Start ≤ b.Start) := by
  induction l with
  | nil => simp [insertByStart]
  | cons x xs ih =>
    rw [List.pairwise_cons] at h
    obtain ⟨hx, hxs⟩ := h
    by_cases hc : r.Start ≤ x.Start
    · simp only [insertByStart, if_pos hc]
      refine List.Pairwise.cons ?_ (List.Pairwise.cons hx hxs)
      intro b hb
      rcases List.mem_cons.mp hb with rfl | hbx
      · exact hc
      · exact le_trans hc (hx b hbx)
    · simp only [insertByStart, if_neg hc]
      refine List.Pairwise.cons ?_ (ih hxs)
      intro b hb
      rcases mem_insertByStart.mp hb with rfl | hbx
      · exact le_of_not_le hc
      · exact hx b hbx

/-- The merge step returns a list pairwise ordered by ascending Start. -/
theorem sortByStart_pairwise (l : List Row) :
    (sortByStart l).Pairwise (fun a b => a.Start ≤ b.Start) := by
  induction l with
  | nil => simp [sortByStart]
  | cons r rs ih =>
    simp only [sortByStart]
    exact pairwise_insertByStart ih

/-- The merge step permutes its input. -/
theorem sortByStart_perm (l : List Row) : List.Perm (sortByStart l) l := by
  induction l with
  | nil => exact List.Perm.refl _
  | cons r rs ih =>
    simp only [sortByStart]
    exact (insertByStart_perm r (sortByStart rs)).trans (ih.cons r)

/-- Inserting a count pair is a permutation of consing. -/
theorem insertByCountDesc_perm (p : String × Nat) (l : List (String × Nat)) :
    List.Perm (insertByCountDesc p l) (p :: l) := by
  induction l with
  | nil => exact List.Perm.refl _
  | cons x xs ih =>
    by_cases h : x.2 ≤ p.2
    · simp [insertByCountDesc, h]
    · simp only [insertByCountDesc, if_neg h]
      exact (ih.cons x).trans (List.Perm.swap p x xs)

/-- The summary sort permutes its input. -/
theorem sortByCountDesc_perm (l : List (String × Nat)) :
    List.Perm (sortByCountDesc l) l := by
  induction l with
  | nil => exact List.Perm.refl _
  | cons p ps ih =>
    simp only [sortByCountDesc]
    exact (insertByCountDesc_perm p (sortByCountDesc ps)).trans (ih.cons p)

/-- Filtering away a different key does not change a key's count. -/
theorem occCount_filter_of_ne {k x : String} (hkx : ¬ k = x) (l : List String) :
    occCount k (l.filter (fun y => decide (¬ y = x))) = occCount k l := by
  induction l with
  | nil => rfl
  | cons a as ih =>
    by_cases hax : a = x
    · subst hax
      rw [List.filter_cons, if_neg (by simp), ih, occCount,
        if_neg (fun h => hkx h.symm), Nat.zero_add]
    · rw [List.filter_cons, if_pos (by simpa using hax), occCount, occCount, ih]

/-- Membership in the worker `uniqueKeysAux`. -/
theorem mem_uniqueKeysAux (l : List String) :
    ∀ seen k, k ∈ uniqueKeysAux seen l ↔ (k ∈ l ∧ k ∉ seen) := by
  induction l with
  | nil =>
    intro seen k
    simp [uniqueKeysAux]
  | cons x xs ih =>
    intro seen k
    simp only [uniqueKeysAux]
    by_cases hin : x ∈ seen
    · rw [if_pos hin, ih seen k]
      constructor
      · rintro ⟨h1, h2⟩
        exact ⟨List.mem_cons_of_mem _ h1, h2⟩
      · rintro ⟨h1, h2⟩
        rcases List.mem_cons.mp h1 with rfl | h1
        · exact absurd hin h2
        · exact ⟨h1, h2⟩
    · rw [if_neg hin, List.mem_cons, ih (x :: seen) k]
      constructor
      · rintro (rfl | ⟨h1, h2⟩)
        · exact ⟨List.mem_cons_self _ _, hin⟩
        · exact ⟨List.mem_cons_of_mem _ h1,
            fun hs => h2 (List.mem_cons_of_mem _ hs)⟩
      · rintro ⟨h1, h2⟩
        rcases List.mem_cons.mp h1 with rfl | h1
        · exact Or.inl rfl
        · by_cases hkx : k = x
          · exact Or.inl hkx
          · refine Or.inr ⟨h1, ?_⟩
            intro hs
            rcases List.mem_cons.mp hs with rfl | hs
            · exact hkx rfl
            · exact h2 hs

/-- The worker `uniqueKeysAux` never repeats a key. -/
theorem nodup_uniqueKeysAux (l : List String) :
    ∀ seen, (uniqueKeysAux seen l).Nodup := by
  induction l with
  | nil =>
    intro seen
    simp [uniqueKeysAux]
  | cons x xs ih =>
    intro seen
    simp only [uniqueKeysAux]
    by_cases hin : x ∈ seen
    · rw [if_pos hin]
      exact ih seen
    · rw [if_neg hin]
      refine List.nodup_cons.mpr ⟨?_, ih (x :: seen)⟩
      intro hmem
      exact ((mem_uniqueKeysAux xs (x :: seen) x).mp hmem).2 (List.mem_cons_self _ _)

/-- A key's count plus the length of the rest is the whole length. -/
theorem occCount_add_length_filter (x : String) (xs : List String) :
    occCount x xs + (xs.filter (fun y => decide (¬ y = x))).length = xs.length := by
  induction xs with
  | nil => rfl
  | cons a as ih =>
    by_cases hax : a = x
    · subst hax
      rw [occCount, if_pos rfl, List.filter_cons, if_neg (by simp), List.length_cons]
      omega
    · rw [occCount, if_neg hax, List.filter_cons, if_pos (by simpa using hax),
        List.length_cons, List.length_cons]
      omega

/-- Summing the counts of all the distinct keys of a list, without
repetition, gives the length of the list. -/
theorem sum_occCount_of_nodup :
    ∀ u : List String, u.Nodup → ∀ l : List String, (∀ k, k ∈ l → k ∈ u) →
      (u.map (fun k => occCount k l)).sum = l.length := by
  intro u
  induction u with
  | nil =>
    intro _ l hcov
    cases l with
    | nil => rfl
    | cons a as => exact absurd (hcov a (List.mem_cons_self _ _)) (by simp)
  | cons x u' ih =>
    intro hu l hcov
    obtain ⟨hx, hu'⟩ := List.nodup_cons.mp hu
    simp only [List.map_cons, List.sum_cons]
    have hmap : u'.map (fun k => occCount k l)
        = u'.map (fun k => occCount k (l.filter (fun y => decide (¬ y = x)))) := by
      apply List.map_congr_left
      intro k hk
      have hkx : ¬ k = x := fun h => hx (h ▸ hk)
      rw [occCount_filter_of_ne hkx]
    rw [hmap, ih hu' (l.filter (fun y => decide (¬ y = x))) ?_]
    · exact occCount_add_length_filter x l
    · intro k hk
      have hmem := List.mem_filter.mp hk
      have hkx : ¬ k = x := by simpa using hmem.2
      rcases List.mem_cons.mp (hcov k hmem.1) with rfl | h
      · exact absurd rfl hkx
      · exact h

/-- Counts over the distinct keys sum to the length of the label list. -/
theorem sum_map_occCount_uniqueKeys (l : List String) :
    ((uniqueKeys l).map (fun k => occCount k l)).sum = l.length := by
  apply sum_occCount_of_nodup (uniqueKeys l) (nodup_uniqueKeysAux l []) l
  intro k hk
  exact (mem_uniqueKeysAux l [] k).mpr ⟨hk, by simp⟩

/-- The counts in `value_counts` sum to the length of the label list. -/
theorem sum_map_snd_value_counts (types : List String) :
    ((value_counts types).map Prod.snd).sum = types.length := by
  have hperm :=
    sortByCountDesc_perm ((uniqueKeys types).map (fun k => (k, occCount k types)))
  have hsum := (hperm.map Prod.snd).sum_eq
  rw [value_counts, hsum, List.map_map]
  simpa using sum_map_occCount_uniqueKeys types

/-- Inversion of a successful pipeline run: the loader resolved the
model, `all_entities` is the sorted concatenation of the native and
custom rows, and `type_summary` is `value_counts` of its Type column. -/
theorem perform_ok_inv (load : String → Option Nlp) (text m : String) (r : Results)
    (h : perform_ner_analysis load text m = Except.ok r) :
    ∃ nlp, load m = some nlp
      ∧ r.all_entities = sortByStart (native_entities_of nlp.explain (nlp.annotate text)
          ++ custom_entities_of (nlp.annotate text))
      ∧ r.type_summary = value_counts (r.all_entities.map Row.Type') := by
  unfold perform_ner_analysis at h
  split at h
  · exact absurd h (by simp)
  · rename_i nlp hl
    split at h
    · exact absurd h (by simp)
    · rename_i p hc
      unfold analysisCore at hc
      split at hc
      · exact absurd hc (by simp)
      · injection hc with hc
        injection h with h
        subst h
        refine ⟨nlp, hl, ?_, ?_⟩
        · rw [← hc]
        · rw [← hc]

/-- An index holding a defined entry is within bounds. -/
theorem lt_length_of_getElem? {α : Type} (l : List α) :
    ∀ (n : Nat) (t : α), l[n]? = some t → n < l.length := by
  induction l with
  | nil =>
    intro n t h
    simp at h
  | cons a as ih =>
    intro n t h
    cases n with
    | zero => exact Nat.succ_pos _
    | succ n =>
      rw [List.getElem?_cons_succ] at h
      exact Nat.succ_lt_succ (ih n t h)

/-- Dropping up to a defined entry exposes it at the head. -/
theorem drop_eq_cons_of_getElem? {α : Type} (l : List α) :
    ∀ (n : Nat) (t : α), l[n]? = some t → l.drop n = t :: l.drop (n + 1) := by
  induction l with
  | nil =>
    intro n t h
    simp at h
  | cons a as ih =>
    intro n t h
    cases n with
    | zero =>
      rw [List.getElem?_cons_zero] at h
      injection h with h
      subst h
      rfl
    | succ n =>
      rw [List.getElem?_cons_succ] at h
      show as.drop n = t :: as.drop (n + 1)
      exact ih n t h

/-- `getD` returns the defined entry. -/
theorem getD_eq_of_getElem? {α : Type} [Inhabited α] (l : List α) :
    ∀ (n : Nat) (t : α), l[n]? = some t → l.getD n default = t := by
  induction l with
  | nil =>
    intro n t h
    simp at h
  | cons a as ih =>
    intro n t h
    cases n with
    | zero =>
      rw [List.getElem?_cons_zero] at h
      exact Option.some.inj h
    | succ n =>
      rw [List.getElem?_cons_succ] at h
      show as.getD n default = t
      exact ih n t h

/-- A pattern of one of the table's rules matching at token position s
contributes its span row to the custom entity list. -/
theorem spanRow_mem_custom (doc : Doc) (name : String) (pat : List TokenSpec) (s : Nat)
    (hrule : ∃ rule ∈ custom_patterns, rule.1 = name ∧ pat ∈ rule.2)
    (hs : s < doc.tokens.length)
    (hm : specsMatch pat (doc.tokens.drop s) = true) :
    spanRow doc name s (s + pat.length) ∈ custom_entities_of doc := by
  obtain ⟨rule, hmem, hname, hpat⟩ := hrule
  subst hname
  refine List.mem_map.mpr ⟨(rule.1, s, s + pat.length), ?_, rfl⟩
  simp only [matcherMatches, List.mem_flatMap]
  exact ⟨s, List.mem_range.mpr hs, rule, hmem,
    List.mem_map.mpr ⟨pat, List.mem_filter.mpr ⟨hpat, hm⟩, rfl⟩⟩

/-! Claim theorems. -/

/-- C1: whenever the pipeline returns (in particular on every non-empty
input text with the model available), the merged EntityCollection is
sorted by ascending start offset: for every index i,
entities[i].Start ≤ entities[i+1].Start. -/
theorem C1_merged_sorted_by_start (load : String → Option Nlp) (text m : String)
    (r : Results) (h : perform_ner_analysis load text m = Except.ok r) :
    ∀ i, (hi : i + 1 < r.all_entities.length) →
      (r.all_entities.get ⟨i, Nat.lt_of_succ_lt hi⟩).Start
        ≤ (r.all_entities.get ⟨i + 1, hi⟩).Start := by
  obtain ⟨nlp, -, hA, -⟩ := perform_ok_inv load text m r h
  intro i hi
  have hp : r.all_entities.Pairwise (fun a b => a.Start ≤ b.Start) := by
    rw [hA]
    exact sortByStart_pairwise _
  exact List.pairwise_iff_get.mp hp ⟨i, Nat.lt_of_succ_lt hi⟩ ⟨i + 1, hi⟩
    (by exact Nat.lt_succ_self i)

/-- Witness for C1: instantiated on the concrete Kenya-example run. -/
theorem C1_witness :
    (c7results.all_entities.get ⟨0, by decide⟩).Start
      ≤ (c7results.all_entities.get ⟨1, by decide⟩).Start :=
  C1_merged_sorted_by_start c7load c7text "en_core_web_sm" c7results (by rfl)
    0 (by decide)

/-- C2: whenever the pipeline returns, the counts of the
CategorySummary sum to exactly the number of rows of the merged
EntityCollection. -/
theorem C2_counts_sum_to_rows (load : String → Option Nlp) (text m : String)
    (r : Results) (h : perform_ner_analysis load text m = Except.ok r) :
    (r.type_summary.map Prod.snd).sum = r.all_entities.length := by
  obtain ⟨nlp, -, -, hS⟩ := perform_ok_inv load text m r h
  rw [hS, sum_map_snd_value_counts, List.length_map]

/-- Witness for C2: instantiated on the concrete Kenya-example run. -/
theorem C2_witness :
    (c7results.type_summary.map Prod.snd).sum = c7results.all_entities.length :=
  C2_counts_sum_to_rows c7load c7text "en_core_web_sm" c7results (by rfl)

/-- C3 (code bug): on empty input text the annotator attaches no tokens
and no entities, both entity lists are empty, and the combine step
raises the pandas KeyError on the missing Start column instead of
returning an empty EntityCollection, empty CategorySummary and a
RenderedView as the spec claims. -/
theorem C3_empty_input_raises_keyerror (load : String → Option Nlp) (nlp : Nlp)
    (h : load "en_core_web_sm" = some nlp)
    (hents : (nlp.annotate "").ents = [])
    (htoks : (nlp.annotate "").tokens = []) :
    perform_ner_analysis load "" "en_core_web_sm"
      = Except.error (PyError.keyError "Start") := by
  have hnat : native_entities_of nlp.explain (nlp.annotate "") = [] := by
    simp [native_entities_of, hents]
  have hcust : custom_entities_of (nlp.annotate "") = [] := by
    simp [custom_entities_of, matcherMatches, htoks]
  have hcore : analysisCore nlp.explain (nlp.annotate "")
      = Except.error (PyError.keyError "Start") := by
    rw [analysisCore, hnat, hcust]
    rfl
  unfold perform_ner_analysis
  simp only [h, hcore]

/-- Witness for C3: the empty-document annotator triggers the KeyError. -/
theorem C3_witness :
    perform_ner_analysis (fun _ => some emptyNlp) "" "en_core_web_sm"
      = Except.error (PyError.keyError "Start") :=
  C3_empty_input_raises_keyerror (fun _ => some emptyNlp) emptyNlp rfl rfl rfl

/-- C4: when the model identifier does not resolve, the pipeline fails
with the single model-not-found error carrying the actionable install
message, before any other output is constructed (the result is the
error alone, never a partial bundle). -/
theorem C4_missing_model_error (load : String → Option Nlp) (text m : String)
    (h : load m = none) :
    perform_ner_analysis load text m
      = Except.error (PyError.modelNotFound
          ("Model " ++ m ++ " not found. Install it with: python -m spacy download " ++ m)) := by
  unfold perform_ner_analysis
  simp only [h]

/-- Witness for C4: the spec's "does-not-exist" scenario. -/
theorem C4_witness :
    perform_ner_analysis (fun _ => none) "some text" "does-not-exist"
      = Except.error (PyError.modelNotFound
          "Model does-not-exist not found. Install it with: python -m spacy download does-not-exist") :=
  C4_missing_model_error (fun _ => none) "some text" "does-not-exist" rfl

/-- C6: every custom pattern match yields an Entity carrying its rule's
category label and the fixed description "Custom entity"; and for any
input text (any loader and annotator) whose tokenization contains the
literal token "WHO", the adjacent literal tokens "energy" "ladder", and
the literal token "PM2.5", the merged EntityCollection contains three
custom entities labeled ORG, RESEARCH_CONCEPT and RESEARCH_CONCEPT
respectively, each with Description "Custom entity", one per occurrence
(each anchored to its source span's character offsets). -/
theorem C6_custom_rule_rows (load : String → Option Nlp) (nlp : Nlp)
    (text m : String) (i j k : Nat) (tw te tl tp : Token)
    (h1 : load m = some nlp)
    (hw : (nlp.annotate text).tokens[i]? = some tw) (hwt : tw.text = "WHO")
    (he : (nlp.annotate text).tokens[j]? = some te) (het : te.text = "energy")
    (hl : (nlp.annotate text).tokens[j + 1]? = some tl) (hlt : tl.text = "ladder")
    (hp : (nlp.annotate text).tokens[k]? = some tp) (hpt : tp.text = "PM2.5") :
    (∀ doc : Doc, ∀ e ∈ custom_entities_of doc,
        e.Description = some "Custom entity" ∧ e.Type' ∈ custom_patterns.map Prod.fst)
    ∧ ∃ r : Results, perform_ner_analysis load text m = Except.ok r
        ∧ (∃ ew ∈ r.all_entities, ew.Type' = "ORG"
            ∧ ew.Description = some "Custom entity"
            ∧ ew.Start = tw.idx ∧ ew.End = tw.end_char)
        ∧ (∃ el ∈ r.all_entities, el.Type' = "RESEARCH_CONCEPT"
            ∧ el.Description = some "Custom entity"
            ∧ el.Start = te.idx ∧ el.End = tl.end_char)
        ∧ (∃ ep ∈ r.all_entities, ep.Type' = "RESEARCH_CONCEPT"
            ∧ ep.Description = some "Custom entity"
            ∧ ep.Start = tp.idx ∧ ep.End = tp.end_char) := by
  constructor
  · intro doc e he2
    obtain ⟨mt, hm, rfl⟩ := List.mem_map.mp he2
    refine ⟨rfl, ?_⟩
    simp only [matcherMatches, List.mem_flatMap] at hm
    obtain ⟨s, -, rule, hrule, hpat⟩ := hm
    obtain ⟨pat, -, rfl⟩ := List.mem_map.mp hpat
    exact List.mem_map.mpr ⟨rule, hrule, rfl⟩
  · have hmw : specsMatch [TokenSpec.lowerEq "who"]
        ((nlp.annotate text).tokens.drop i) = true := by
      rw [drop_eq_cons_of_getElem? _ i tw hw]
      simp only [specsMatch, TokenSpec.check, tokenLower, hwt]
      decide
    have hmel : specsMatch [TokenSpec.lowerEq "energy", TokenSpec.lowerEq "ladder"]
        ((nlp.annotate text).tokens.drop j) = true := by
      rw [drop_eq_cons_of_getElem? _ j te he, drop_eq_cons_of_getElem? _ (j + 1) tl hl]
      simp only [specsMatch, TokenSpec.check, tokenLower, het, hlt]
      decide
    have hmp : specsMatch [TokenSpec.lowerIn ["pm2.5", "pm10"]]
        ((nlp.annotate text).tokens.drop k) = true := by
      rw [drop_eq_cons_of_getElem? _ k tp hp]
      simp only [specsMatch, TokenSpec.check, tokenLower, hpt]
      decide
    have hWmem : spanRow (nlp.annotate text) "ORG" i (i + 1)
        ∈ custom_entities_of (nlp.annotate text) :=
      spanRow_mem_custom (nlp.annotate text) "ORG" [TokenSpec.lowerEq "who"] i
        (by decide) (lt_length_of_getElem? _ i tw hw) hmw
    have hLmem : spanRow (nlp.annotate text) "RESEARCH_CONCEPT" j (j + 2)
        ∈ custom_entities_of (nlp.annotate text) :=
      spanRow_mem_custom (nlp.annotate text) "RESEARCH_CONCEPT"
        [TokenSpec.lowerEq "energy", TokenSpec.lowerEq "ladder"] j
        (by decide) (lt_length_of_getElem? _ j te he) hmel
    have hPmem : spanRow (nlp.annotate text) "RESEARCH_CONCEPT" k (k + 1)
        ∈ custom_entities_of (nlp.annotate text) :=
      spanRow_mem_custom (nlp.annotate text) "RESEARCH_CONCEPT"
        [TokenSpec.lowerIn ["pm2.5", "pm10"]] k
        (by decide) (lt_length_of_getElem? _ k tp hp) hmp
    have hne : ((native_entities_of nlp.explain (nlp.annotate text)).isEmpty
        && (custom_entities_of (nlp.annotate text)).isEmpty) = false := by
      cases hcl : custom_entities_of (nlp.annotate text) with
      | nil =>
        rw [hcl] at hWmem
        exact absurd hWmem (List.not_mem_nil _)
      | cons a l2 => simp
    have hcore : analysisCore nlp.explain (nlp.annotate text) = Except.ok
        (sortByStart (native_entities_of nlp.explain (nlp.annotate text)
            ++ custom_entities_of (nlp.annotate text)),
         value_counts ((sortByStart (native_entities_of nlp.explain (nlp.annotate text)
            ++ custom_entities_of (nlp.annotate text))).map Row.Type')) := by
      unfold analysisCore
      rw [hne, if_neg Bool.false_ne_true]
    have hok : perform_ner_analysis load text m = Except.ok
        { doc := nlp.annotate text,
          all_entities := sortByStart (native_entities_of nlp.explain (nlp.annotate text)
            ++ custom_entities_of (nlp.annotate text)),
          type_summary := value_counts ((sortByStart (native_entities_of nlp.explain
            (nlp.annotate text) ++ custom_entities_of (nlp.annotate text))).map Row.Type'),
          visualization_html := nlp.render (nlp.annotate text) } := by
      unfold perform_ner_analysis
      simp only [h1, hcore]
    have hWall : spanRow (nlp.annotate text) "ORG" i (i + 1)
        ∈ sortByStart (native_entities_of nlp.explain (nlp.annotate text)
            ++ custom_entities_of (nlp.annotate text)) := by
      rw [(sortByStart_perm _).mem_iff]
      exact List.mem_append.mpr (Or.inr hWmem)
    have hLall : spanRow (nlp.annotate text) "RESEARCH_CONCEPT" j (j + 2)
        ∈ sortByStart (native_entities_of nlp.explain (nlp.annotate text)
            ++ custom_entities_of (nlp.annotate text)) := by
      rw [(sortByStart_perm _).mem_iff]
      exact List.mem_append.mpr (Or.inr hLmem)
    have hPall : spanRow (nlp.annotate text) "RESEARCH_CONCEPT" k (k + 1)
        ∈ sortByStart (native_entities_of nlp.explain (nlp.annotate text)
            ++ custom_entities_of (nlp.annotate text)) := by
      rw [(sortByStart_perm _).mem_iff]
      exact List.mem_append.mpr (Or.inr hPmem)
    have hWs : (spanRow (nlp.annotate text) "ORG" i (i + 1)).Start = tw.idx := by
      show ((nlp.annotate text).tokens.getD i default).idx = tw.idx
      rw [getD_eq_of_getElem? _ i tw hw]
    have hWe : (spanRow (nlp.annotate text) "ORG" i (i + 1)).End = tw.end_char := by
      show ((nlp.annotate text).tokens.getD (i + 1 - 1) default).end_char = tw.end_char
      rw [(by omega : i + 1 - 1 = i), getD_eq_of_getElem? _ i tw hw]
    have hLs : (spanRow (nlp.annotate text) "RESEARCH_CONCEPT" j (j + 2)).Start
        = te.idx := by
      show ((nlp.annotate text).tokens.getD j default).idx = te.idx
      rw [getD_eq_of_getElem? _ j te he]
    have hLe : (spanRow (nlp.annotate text) "RESEARCH_CONCEPT" j (j + 2)).End
        = tl.end_char := by
      show ((nlp.annotate text).tokens.getD (j + 2 - 1) default).end_char = tl.end_char
      rw [(by omega : j + 2 - 1 = j + 1), getD_eq_of_getElem? _ (j + 1) tl hl]
    have hPs : (spanRow (nlp.annotate text) "RESEARCH_CONCEPT" k (k + 1)).Start
        = tp.idx := by
      show ((nlp.annotate text).tokens.getD k default).idx = tp.idx
      rw [getD_eq_of_getElem? _ k tp hp]
    have hPe : (spanRow (nlp.annotate text) "RESEARCH_CONCEPT" k (k + 1)).End
        = tp.end_char := by
      show ((nlp.annotate text).tokens.getD (k + 1 - 1) default).end_char = tp.end_char
      rw [(by omega : k + 1 - 1 = k), getD_eq_of_getElem? _ k tp hp]
    exact ⟨_, hok,
      ⟨spanRow (nlp.annotate text) "ORG" i (i + 1), hWall, rfl, rfl, hWs, hWe⟩,
      ⟨spanRow (nlp.annotate text) "RESEARCH_CONCEPT" j (j + 2), hLall, rfl, rfl, hLs, hLe⟩,
      ⟨spanRow (nlp.annotate text) "RESEARCH_CONCEPT" k (k + 1), hPall, rfl, rfl, hPs, hPe⟩⟩

/-- Witness for C6: instantiated on a loader resolving to the
WHO-example annotator, whose document has the required tokens at
positions 0, 3, 4 and 6. -/
theorem C6_witness :
    (∀ doc : Doc, ∀ e ∈ custom_entities_of doc,
        e.Description = some "Custom entity" ∧ e.Type' ∈ custom_patterns.map Prod.fst)
    ∧ ∃ r : Results,
        perform_ner_analysis (fun _ => some c6nlp) c6text "en_core_web_sm" = Except.ok r
        ∧ (∃ ew ∈ r.all_entities, ew.Type' = "ORG"
            ∧ ew.Description = some "Custom entity"
            ∧ ew.Start = (Token.mk "WHO" 0).idx ∧ ew.End = (Token.mk "WHO" 0).end_char)
        ∧ (∃ el ∈ r.all_entities, el.Type' = "RESEARCH_CONCEPT"
            ∧ el.Description = some "Custom entity"
            ∧ el.Start = (Token.mk "energy" 15).idx
            ∧ el.End = (Token.mk "ladder" 22).end_char)
        ∧ (∃ ep ∈ r.all_entities, ep.Type' = "RESEARCH_CONCEPT"
            ∧ ep.Description = some "Custom entity"
            ∧ ep.Start = (Token.mk "PM2.5" 33).idx
            ∧ ep.End = (Token.mk "PM2.5" 33).end_char) :=
  C6_custom_rule_rows (fun _ => some c6nlp) c6nlp c6text "en_core_web_sm" 0 3 6
    (Token.mk "WHO" 0) (Token.mk "energy" 15) (Token.mk "ladder" 22) (Token.mk "PM2.5" 33)
    rfl rfl rfl rfl rfl rfl rfl rfl rfl

/-- C7: on the text "Kenya relies on charcoal and biomass." (with no
native entities attached), the pipeline yields exactly the custom
entities Kenya/GEOG, charcoal/ENERGY_SOURCE and biomass/ENERGY_SOURCE,
in the order they appear in the sentence. -/
theorem C7_kenya_example (load : String → Option Nlp) (nlp : Nlp)
    (h1 : load "en_core_web_sm" = some nlp) (h2 : nlp.annotate c7text = c7doc) :
    ∃ r : Results, perform_ner_analysis load c7text "en_core_web_sm" = Except.ok r
      ∧ r.all_entities = [c7kenya, c7charcoal, c7biomass]
      ∧ c7kenya.Type' = "GEOG"
      ∧ c7charcoal.Type' = "ENERGY_SOURCE"
      ∧ c7biomass.Type' = "ENERGY_SOURCE"
      ∧ c7kenya.Start ≤ c7charcoal.Start ∧ c7charcoal.Start ≤ c7biomass.Start := by
  refine ⟨{
      doc := c7doc,
      all_entities := [c7kenya, c7charcoal, c7biomass],
      type_summary := [("ENERGY_SOURCE", 2), ("GEOG", 1)],
      visualization_html := nlp.render c7doc }, ?_, rfl, rfl, rfl, rfl, by decide, by decide⟩
  unfold perform_ner_analysis
  simp only [h1, h2]
  rfl

/-- Witness for C7: instantiated on a loader resolving to the
Kenya-example annotator. -/
theorem C7_witness :
    ∃ r : Results, perform_ner_analysis c7load c7text "en_core_web_sm" = Except.ok r
      ∧ r.all_entities = [c7kenya, c7charcoal, c7biomass]
      ∧ c7kenya.Type' = "GEOG"
      ∧ c7charcoal.Type' = "ENERGY_SOURCE"
      ∧ c7biomass.Type' = "ENERGY_SOURCE"
      ∧ c7kenya.Start ≤ c7charcoal.Start ∧ c7charcoal.Start ≤ c7biomass.Start :=
  C7_kenya_example c7load c7nlp rfl rfl

/-- C8 (amended): the Description of the i-th native row is exactly the
label-to-definition lookup of the i-th native entity's label, and when
no definition exists it is the absent value None — not the empty
string. -/
theorem C8_description_from_lookup (explain : String → Option String) (doc : Doc)
    (i : Nat) (h : i < doc.ents.length) :
    ∃ h2 : i < (native_entities_of explain doc).length,
      ((native_entities_of explain doc).get ⟨i, h2⟩).Description
          = explain ((doc.ents.get ⟨i, h⟩).label)
        ∧ (explain ((doc.ents.get ⟨i, h⟩).label) = none →
            ((native_entities_of explain doc).get ⟨i, h2⟩).Description ≠ some "") := by
  have h2 : i < (native_entities_of explain doc).length := by
    simpa [native_entities_of] using h
  refine ⟨h2, ?_, ?_⟩
  · simp [native_entities_of, List.get_eq_getElem, List.getElem_map]
  · intro hn
    rw [List.get_eq_getElem] at hn
    simp [native_entities_of, List.get_eq_getElem, List.getElem_map, hn]

/-- Witness for C8: instantiated on the one-entity document whose label
has no definition in the lookup. -/
theorem C8_witness :
    ∃ h2 : 0 < (native_entities_of c8explain c8doc).length,
      ((native_entities_of c8explain c8doc).get ⟨0, h2⟩).Description
          = c8explain ((c8doc.ents.get ⟨0, by decide⟩).label)
        ∧ (c8explain ((c8doc.ents.get ⟨0, by decide⟩).label) = none →
            ((native_entities_of c8explain c8doc).get ⟨0, h2⟩).Description ≠ some "") :=
  C8_description_from_lookup c8explain c8doc 0 (by decide)

/-- C8 counterexample: against the claim as stated, a native entity
whose label has no definition gets Description None, which is not the
empty string. -/
theorem C8_counterexample :
    c8explain "CUSTOM_LBL" = none
    ∧ (native_entities_of c8explain c8doc).map Row.Description = [none]
    ∧ (native_entities_of c8explain c8doc).map Row.Description ≠ [some ""] := by
  refine ⟨rfl, rfl, ?_⟩
  decide

/-- C10: two runs with identical text and model name, resolving to
annotators that behave identically on that text (the deterministic-
annotator assumption), produce identical EntityCollection content and
identical CategorySummary. -/
theorem C10_two_run_determinism (load1 load2 : String → Option Nlp)
    (nlp1 nlp2 : Nlp) (text m : String)
    (h1 : load1 m = some nlp1) (h2 : load2 m = some nlp2)
    (hdoc : nlp1.annotate text = nlp2.annotate text)
    (hexp : nlp1.explain = nlp2.explain) :
    (perform_ner_analysis load1 text m).map (fun r => (r.all_entities, r.type_summary))
      = (perform_ner_analysis load2 text m).map (fun r => (r.all_entities, r.type_summary)) := by
  unfold perform_ner_analysis
  simp only [h1, h2, hdoc, hexp]
  cases analysisCore nlp2.explain (nlp2.annotate text) with
  | error e => rfl
  | ok p => rfl

/-- Witness for C10: two identical concrete runs. -/
theorem C10_witness :
    (perform_ner_analysis c7load c7text "en_core_web_sm").map
        (fun r => (r.all_entities, r.type_summary))
      = (perform_ner_analysis (fun _ => some c7nlp) c7text "en_core_web_sm").map
        (fun r => (r.all_entities, r.type_summary)) :=
  C10_two_run_determinism c7load (fun _ => some c7nlp) c7nlp c7nlp c7text
    "en_core_web_sm" rfl rfl rfl rfl

end NER
